import Mathlib

/-!
# Verification of the stateless light-client CLI

A shallow embedding of `light-client-cli/src/main.rs` (stateless header
verification driver for a Tendermint light client) together with
spec-modelled definitions for the library components the driver calls
(light store, verification engine, expiry predicate, divergence detector),
and theorems settling the specification claims about them.

Heights, hashes and times are modelled as `Nat`; durations in seconds as
`Nat`.
-/

namespace StatelessCli

/-- A light block, reduced to the fields the claims are about: its height,
its content hash and its header time. -/
structure LightBlock where
  height : Nat
  hash : Nat
  time : Nat
deriving DecidableEq, Repr

/-- Verification status of a block in the light store
(`tendermint_light_client::types::Status`). -/
inductive Status where
  | trusted
  | verified
  | unverified
  | failed
deriving DecidableEq, Repr

/-- Modelled from the spec: the Block Store, "a mapping from height to
(Block, Trust Status)" with "at most one block per height"
(the `MemoryStore` used by `make_provider` is not part of the excerpt).
Represented as an association list keyed by height. -/
abbrev LightStore : Type := List (Nat × LightBlock × Status)

/-- Modelled from the spec: `LightStore::insert` — record a block under its
height with the given status, replacing any existing entry at that
height. -/
def storeInsert : LightStore → LightBlock → Status → LightStore
  | [], b, st => [(b.height, b, st)]
  | e :: s, b, st =>
      if e.1 = b.height then (b.height, b, st) :: s
      else e :: storeInsert s b st

/-- Modelled from the spec: lookup by height in the Block Store. -/
def storeLookup (s : LightStore) (h : Nat) : Option (LightBlock × Status) :=
  (s.find? (fun e => decide (e.1 = h))).map (fun e => e.2)

/-- Number of entries of the store carrying `Trusted` status. -/
def countTrusted (s : LightStore) : Nat :=
  s.countP (fun e => decide (e.2.2 = Status.trusted))

/-- How a run of `make_provider` can fail. `proof[0]` on an empty vector is
a Rust panic (index out of bounds), which is a distinct termination mode
from an error reported through the `Result` path; `emptySeedInput` is the
structured input error that the error taxonomy prescribes for an empty
seed sequence. -/
inductive ProviderError where
  | panicIndexOutOfBounds
  | emptySeedInput
deriving DecidableEq, Repr

/-- The provider produced by `make_provider`: a chain id together with the
populated light store backing the light-client instance. -/
structure Provider where
  chainId : String
  store : LightStore

/-- Embedding of `make_provider` (main.rs lines 271–308): every block of
the parsed input sequence is inserted into a fresh memory store with
status `Unverified`, then the first block (`proof[0]`, a panic when the
sequence is empty) is trusted, i.e. re-inserted with status `Trusted`
(`trust_light_block` is modelled from the spec: the first block "is
treated as the initial `Trusted` anchor"). -/
def makeProvider (chainId : String) (proof : List LightBlock) :
    Except ProviderError Provider :=
  let base := proof.foldl (fun s b => storeInsert s b Status.unverified) []
  match proof with
  | [] => Except.error ProviderError.panicIndexOutOfBounds
  | b0 :: _ => Except.ok { chainId := chainId, store := storeInsert base b0 Status.trusted }

/-! ## Store lemmas -/

theorem storeLookup_storeInsert (s : LightStore) (b : LightBlock) (st : Status)
    (h : Nat) :
    storeLookup (storeInsert s b st) h =
      if h = b.height then some (b, st) else storeLookup s h := by
  induction s with
  | nil =>
      by_cases hh : h = b.height
      · simp [storeInsert, storeLookup, List.find?, hh]
      · have hh' : ¬ b.height = h := fun hc => hh hc.symm
        simp [storeInsert, storeLookup, List.find?, hh, hh']
  | cons e s ih =>
      by_cases he : e.1 = b.height
      · by_cases hh : h = b.height
        · simp [storeInsert, he, storeLookup, List.find?, hh]
        · have hh' : ¬ b.height = h := fun hc => hh hc.symm
          simp [storeInsert, he, storeLookup, List.find?, hh, hh']
      · by_cases hh : h = e.1
        · have hb : ¬ h = b.height := by
            rw [hh]; exact fun hc => he hc
          simp [storeInsert, he, storeLookup, List.find?, hh.symm, hb]
        · have h1 : ¬ e.1 = h := fun hc => hh hc.symm
          simp only [storeInsert, he, if_false, storeLookup, List.find?,
            h1, decide_eq_true_eq, if_neg h1]
          simpa [storeLookup] using ih

theorem mem_storeInsert (s : LightStore) (b : LightBlock) (st : Status)
    (e : Nat × LightBlock × Status) (he : e ∈ storeInsert s b st) :
    e = (b.height, b, st) ∨ e ∈ s := by
  induction s with
  | nil =>
      simp [storeInsert] at he
      exact Or.inl he
  | cons e' s ih =>
      by_cases h1 : e'.1 = b.height
      · simp only [storeInsert, h1, if_true, List.mem_cons] at he
        rcases he with h | h
        · exact Or.inl h
        · exact Or.inr (List.mem_cons_of_mem _ h)
      · simp only [storeInsert, h1, if_false, List.mem_cons] at he
        rcases he with h | h
        · exact Or.inr (by rw [h]; exact List.mem_cons_self e' s)
        · rcases ih h with h' | h'
          · exact Or.inl h'
          · exact Or.inr (List.mem_cons_of_mem _ h')

theorem storeLookup_mem (s : LightStore) (h : Nat) (b : LightBlock) (st : Status)
    (hl : storeLookup s h = some (b, st)) : (h, b, st) ∈ s := by
  unfold storeLookup at hl
  rcases Option.map_eq_some'.mp hl with ⟨e, hfind, heq⟩
  have hmem : e ∈ s := List.mem_of_find?_eq_some hfind
  have hp := List.find?_some hfind
  have h1 : e.1 = h := by simpa using hp
  have : e = (h, b, st) := by
    rcases e with ⟨k, bs⟩
    simp only at h1 heq
    rw [h1, heq]
  exact this ▸ hmem

theorem storeInsert_all_unverified (s : LightStore) (b : LightBlock)
    (hs : ∀ e ∈ s, e.2.2 = Status.unverified) :
    ∀ e ∈ storeInsert s b Status.unverified, e.2.2 = Status.unverified := by
  intro e he
  rcases mem_storeInsert s b Status.unverified e he with h | h
  · rw [h]
  · exact hs e h

/-- The store built by the `for` loop of `make_provider`. -/
def seedStore (proof : List LightBlock) : LightStore :=
  proof.foldl (fun s b => storeInsert s b Status.unverified) []

theorem seedStore_all_unverified (proof : List LightBlock) :
    ∀ e ∈ seedStore proof, e.2.2 = Status.unverified := by
  have main : ∀ (l : List LightBlock) (s : LightStore),
      (∀ e ∈ s, e.2.2 = Status.unverified) →
      ∀ e ∈ l.foldl (fun s b => storeInsert s b Status.unverified) s,
        e.2.2 = Status.unverified := by
    intro l
    induction l with
    | nil => intro s hs e he; exact hs e he
    | cons b l ih =>
        intro s hs e he
        exact ih _ (storeInsert_all_unverified s b hs) e he
  intro e he
  exact main proof [] (by intro e he; cases he) e he

theorem storeLookup_isSome_storeInsert (s : LightStore) (b : LightBlock)
    (st : Status) (h : Nat) (hh : (storeLookup s h).isSome = true) :
    (storeLookup (storeInsert s b st) h).isSome = true := by
  rw [storeLookup_storeInsert]
  by_cases hb : h = b.height
  · simp [hb]
  · simpa [hb] using hh

theorem storeLookup_isSome_foldl (l : List LightBlock) (s : LightStore)
    (h : Nat) (hh : (storeLookup s h).isSome = true) :
    (storeLookup (l.foldl (fun s b => storeInsert s b Status.unverified) s) h).isSome
      = true := by
  induction l generalizing s with
  | nil => exact hh
  | cons b l ih =>
      exact ih _ (storeLookup_isSome_storeInsert s b Status.unverified h hh)

theorem seedStore_mem_heights (proof : List LightBlock) (blk : LightBlock)
    (hm : blk ∈ proof) :
    (storeLookup (seedStore proof) blk.height).isSome = true := by
  have main : ∀ (l : List LightBlock) (s : LightStore), blk ∈ l →
      (storeLookup (l.foldl (fun s b => storeInsert s b Status.unverified) s)
        blk.height).isSome = true := by
    intro l
    induction l with
    | nil => intro s hc; cases hc
    | cons b l ih =>
        intro s hc
        rcases List.mem_cons.mp hc with h | h
        · rw [List.foldl_cons]
          apply storeLookup_isSome_foldl
          rw [storeLookup_storeInsert]
          simp [h]
        · exact ih _ h
  exact main proof [] hm

theorem countTrusted_storeInsert_trusted (s : LightStore) (b : LightBlock)
    (hs : ∀ e ∈ s, e.2.2 ≠ Status.trusted) :
    countTrusted (storeInsert s b Status.trusted) = 1 := by
  induction s with
  | nil => simp [storeInsert, countTrusted]
  | cons e s ih =>
      by_cases he : e.1 = b.height
      · have hz : countTrusted s = 0 := by
          apply List.countP_eq_zero.mpr
          intro a ha
          simpa using hs a (List.mem_cons_of_mem _ ha)
        simp [storeInsert, he, countTrusted, List.countP_cons] at hz ⊢
        exact hz
      · have he' : e.2.2 ≠ Status.trusted := hs e (List.mem_cons_self _ _)
        have ihs : ∀ a ∈ s, a.2.2 ≠ Status.trusted := fun a ha =>
          hs a (List.mem_cons_of_mem _ ha)
        simp only [storeInsert, he, if_false, countTrusted, List.countP_cons]
        have : ¬ (e.2.2 = Status.trusted) := he'
        simp only [this, decide_eq_true_eq, if_neg this]
        simpa [countTrusted] using ih ihs

/-- C1: For every non-empty seed sequence, `make_provider` succeeds and its
light store holds every block of the sequence (inserted `Unverified`),
with the first block of the sequence recorded as the `Trusted` anchor at
its height; `Trusted` status occurs exactly once in the store, every other
entry is `Unverified`, and any entry with `Trusted` status sits at the
first block's height. -/
theorem makeProvider_trusted_anchor_once (cid : String) (b : LightBlock)
    (bs : List LightBlock) :
    ∃ p, makeProvider cid (b :: bs) = Except.ok p ∧
      storeLookup p.store b.height = some (b, Status.trusted) ∧
      (∀ blk ∈ b :: bs, (storeLookup p.store blk.height).isSome = true) ∧
      (∀ h blk st, storeLookup p.store h = some (blk, st) →
        h ≠ b.height → st = Status.unverified) ∧
      (∀ e ∈ p.store, e.2.2 = Status.trusted → e.1 = b.height) ∧
      countTrusted p.store = 1 := by
  refine ⟨{ chainId := cid,
            store := storeInsert (seedStore (b :: bs)) b Status.trusted },
    rfl, ?_, ?_, ?_, ?_, ?_⟩
  · rw [storeLookup_storeInsert]; simp
  · intro blk hm
    exact storeLookup_isSome_storeInsert _ b Status.trusted blk.height
      (seedStore_mem_heights (b :: bs) blk hm)
  · intro h blk st hl hne
    rw [storeLookup_storeInsert, if_neg hne] at hl
    exact seedStore_all_unverified (b :: bs) _ (storeLookup_mem _ h blk st hl)
  · intro e he htr
    rcases mem_storeInsert _ b Status.trusted e he with h | h
    · rw [h]
    · have := seedStore_all_unverified (b :: bs) e h
      rw [this] at htr
      cases htr
  · apply countTrusted_storeInsert_trusted
    intro e he
    rw [seedStore_all_unverified (b :: bs) e he]
    intro hc
    cases hc

/-! ## Command-line layer: trust threshold, options, defaults, dispatch -/

/-- A trust threshold fraction (`tendermint_light_client::types::TrustThreshold`)
with `u64` numerator and denominator, modelled as `Nat`. -/
structure TrustThreshold where
  numerator : Nat
  denominator : Nat
deriving DecidableEq, Repr

/-- The `TrustThreshold::TWO_THIRDS` constant. -/
def TrustThreshold.twoThirds : TrustThreshold := ⟨2, 3⟩

/-- Modelled from the spec: `TrustThreshold::new` (its body is not part of
the excerpt) — the spec describes a trust threshold as "a fraction,
default 2/3, minimum overlap of voting power", so a pair is accepted
exactly when it is a well-formed fraction at most one: nonzero
denominator and numerator at most the denominator. -/
def TrustThreshold.mk? (numerator denominator : Nat) : Option TrustThreshold :=
  if 0 < denominator ∧ numerator ≤ denominator then
    some ⟨numerator, denominator⟩
  else
    none

/-- Rust `u64::from_str` over the characters of the input: an optional
leading `+`, then at least one ASCII digit and nothing else, and the value
must fit in 64 bits. -/
def parseU64 (cs : List Char) : Option Nat :=
  let digits := match cs with
    | '+' :: rest => rest
    | _ => cs
  if digits ≠ [] ∧ digits.all Char.isDigit then
    let v := digits.foldl (fun n c => n * 10 + (c.toNat - 48)) 0
    if v < 2 ^ 64 then some v else none
  else
    none

/-- Rust `str::split_once('/')`: split at the first `/`, returning the
characters before and after it, or `none` when no `/` occurs. -/
def splitOnceSlash : List Char → Option (List Char × List Char)
  | [] => none
  | c :: cs =>
      if c = '/' then some ([], cs)
      else (splitOnceSlash cs).map (fun p => (c :: p.1, p.2))

/-- Embedding of `parse_trust_threshold` (main.rs lines 40–48): split the
input at the first `/`, parse both sides as `u64`, and build the
threshold, failing on a missing separator, an unparsable side, or a pair
the threshold constructor rejects. -/
def parseTrustThreshold (s : List Char) : Except String TrustThreshold :=
  match splitOnceSlash s with
  | none => Except.error "invalid trust threshold: format must be X/Y where X and Y are integers"
  | some (l, r) =>
      match parseU64 l with
      | none => Except.error "invalid numerator"
      | some n =>
          match parseU64 r with
          | none => Except.error "invalid denominator"
          | some d =>
              match TrustThreshold.mk? n d with
              | none => Except.error "invalid trust threshold value"
              | some t => Except.ok t

/-- The light-client `Options` built by `main` (main.rs lines 141–145):
trust threshold, trusting period and clock drift only — there is no
block-lag field. -/
structure Options where
  trustThreshold : TrustThreshold
  trustingPeriod : Nat
  clockDrift : Nat
deriving DecidableEq, Repr

/-- The parsed command-line arguments (`Cli`, main.rs lines 81–123), with
the input file already read and deserialized into its list of light
blocks. -/
structure Args where
  chainId : String
  trustedHeight : Nat
  trustedHash : Nat
  height : Option Nat
  trustThreshold : TrustThreshold
  trustingPeriod : Nat
  maxClockDrift : Nat
  maxBlockLag : Nat
  inputBlocks : List LightBlock
  verbose : Nat

/-- The `clap` default values of the optional `Cli` fields (main.rs lines
100–114): trust threshold `TrustThreshold::TWO_THIRDS`, trusting period
`"1209600"` seconds, maximum clock drift `"5"` seconds, maximum block lag
`"5"` seconds. -/
structure CliDefaults where
  trustThreshold : TrustThreshold
  trustingPeriod : Nat
  maxClockDrift : Nat
  maxBlockLag : Nat
deriving DecidableEq, Repr

def cliDefaults : CliDefaults :=
  { trustThreshold := TrustThreshold.twoThirds
    trustingPeriod := 1209600
    maxClockDrift := 5
    maxBlockLag := 5 }

/-- `main` builds the verification `Options` from the parsed arguments
(main.rs lines 141–145): threshold, trusting period and clock drift;
`max_block_lag` is not placed into the options. -/
def mkOptions (a : Args) : Options :=
  { trustThreshold := a.trustThreshold
    trustingPeriod := a.trustingPeriod
    clockDrift := a.maxClockDrift }

/-- Which verification entry point `main` invokes on the provider. -/
inductive VerifyCall where
  | toHeight (h : Nat)
  | toHighest
deriving DecidableEq, Repr

/-- The dispatch in `main` (main.rs lines 160–166): with `--height` given,
verify to that height; otherwise verify to the highest height. -/
def mainVerifyCall (height : Option Nat) : VerifyCall :=
  match height with
  | some h => VerifyCall.toHeight h
  | none => VerifyCall.toHighest

/-- The observable outcome of a run: the verified block and the trace
justifying it. -/
abbrev MainOutcome := LightBlock × List LightBlock

/-- Embedding of `main` after argument parsing, parametrized by the
verification engine the provider methods delegate to (the engine lives
outside the excerpt): build the provider from the chain id and the input
blocks, then invoke the engine with the constructed `Options` and the
dispatch chosen from `--height`. -/
def runMain (engine : Provider → Options → VerifyCall → Except ProviderError MainOutcome)
    (a : Args) : Except ProviderError MainOutcome :=
  (makeProvider a.chainId a.inputBlocks).bind
    (fun p => engine p (mkOptions a) (mainVerifyCall a.height))

/-- C3: with `--height` supplied, `main` verifies to exactly that target
height (`verify_to_height`); with it absent, it verifies to the highest
available height (`verify_to_highest`) — stated over the full run
pipeline, for every engine. -/
theorem main_dispatch_height (engine : Provider → Options → VerifyCall →
      Except ProviderError MainOutcome) (a : Args) :
    (∀ h, a.height = some h →
      runMain engine a =
        (makeProvider a.chainId a.inputBlocks).bind
          (fun p => engine p (mkOptions a) (VerifyCall.toHeight h))) ∧
    (a.height = none →
      runMain engine a =
        (makeProvider a.chainId a.inputBlocks).bind
          (fun p => engine p (mkOptions a) VerifyCall.toHighest)) := by
  constructor
  · intro h hh
    unfold runMain mainVerifyCall
    rw [hh]
  · intro hh
    unfold runMain mainVerifyCall
    rw [hh]

/-- A concrete deterministic engine used to instantiate the run-pipeline
theorems. -/
def sampleEngine : Provider → Options → VerifyCall → Except ProviderError MainOutcome :=
  fun _ _ c =>
    match c with
    | VerifyCall.toHeight h => Except.ok (⟨h, 0, 0⟩, [])
    | VerifyCall.toHighest => Except.ok (⟨7, 0, 0⟩, [])

/-- Concrete parsed arguments used to instantiate the run-pipeline
theorems. -/
def sampleArgs : Args :=
  { chainId := "test-chain", trustedHeight := 1, trustedHash := 0
    height := some 5, trustThreshold := TrustThreshold.twoThirds
    trustingPeriod := 1209600, maxClockDrift := 5, maxBlockLag := 5
    inputBlocks := [⟨1, 10, 0⟩], verbose := 0 }

/-- C3 witness: the dispatch at concrete arguments. -/
theorem main_dispatch_height_witness :
    sampleArgs.height = some 5 ∧
    runMain sampleEngine sampleArgs =
      (makeProvider sampleArgs.chainId sampleArgs.inputBlocks).bind
        (fun p => sampleEngine p (mkOptions sampleArgs) (VerifyCall.toHeight 5)) :=
  ⟨rfl, (main_dispatch_height sampleEngine sampleArgs).1 5 rfl⟩

/-- C4 counterexample: on an empty seed sequence `make_provider` does not
return the structured input error the spec's taxonomy prescribes — it
terminates through the `proof[0]` index-out-of-bounds panic. -/
theorem makeProvider_empty_panics :
    makeProvider "test-chain" [] =
      Except.error ProviderError.panicIndexOutOfBounds ∧
    ProviderError.panicIndexOutOfBounds ≠ ProviderError.emptySeedInput := by
  exact ⟨rfl, by intro h; cases h⟩

/-- C4 (amended): when the input file holds an empty seed sequence, the
program still terminates immediately with no retry, but via the
index-out-of-bounds panic raised when `proof[0]` is taken as the trusted
anchor, not via a reported input error. -/
theorem makeProvider_empty_fatal (cid : String) :
    makeProvider cid [] = Except.error ProviderError.panicIndexOutOfBounds := rfl

/-- C9: two runs that differ only in `--max-block-lag` have identical
outcomes for every engine: the parsed `max_block_lag` value reaches
neither the provider, nor the constructed `Options`, nor the dispatch. -/
theorem runMain_ignores_maxBlockLag (engine : Provider → Options → VerifyCall →
      Except ProviderError MainOutcome) (a : Args) (lag : Nat) :
    runMain engine { a with maxBlockLag := lag } = runMain engine a ∧
    mkOptions { a with maxBlockLag := lag } = mkOptions a := by
  cases a
  exact ⟨rfl, rfl⟩

/-- The tracing level filters `Verbosity::to_level_filter` can return. -/
inductive LevelFilter where
  | info
  | debug
  | trace
deriving DecidableEq, Repr

/-- Embedding of `Verbosity::to_level_filter` (main.rs lines 71–79): 0
maps to INFO, 1 to DEBUG, everything else to TRACE. -/
def toLevelFilter (verbose : Nat) : LevelFilter :=
  match verbose with
  | 0 => LevelFilter.info
  | 1 => LevelFilter.debug
  | _ => LevelFilter.trace

/-- C10: on the whole 8-bit range of the verbosity count, the level filter
is INFO at 0, DEBUG at 1, and TRACE from 2 on, so repetitions beyond 2
have no further effect. -/
theorem toLevelFilter_total (v : Nat) (h8 : v < 256) :
    (v = 0 → toLevelFilter v = LevelFilter.info) ∧
    (v = 1 → toLevelFilter v = LevelFilter.debug) ∧
    (2 ≤ v → toLevelFilter v = LevelFilter.trace ∧
      toLevelFilter v = toLevelFilter 2) := by
  refine ⟨fun h0 => by rw [h0]; rfl, fun h1 => by rw [h1]; rfl, fun h2 => ?_⟩
  match v, h2 with
  | (n + 2), _ => exact ⟨rfl, rfl⟩

/-- C10 witness: evaluation at verbosity count 3. -/
theorem toLevelFilter_total_witness :
    (3 : Nat) < 256 ∧
    ((3 = 0 → toLevelFilter 3 = LevelFilter.info) ∧
     (3 = 1 → toLevelFilter 3 = LevelFilter.debug) ∧
     (2 ≤ 3 → toLevelFilter 3 = LevelFilter.trace ∧
       toLevelFilter 3 = toLevelFilter 2)) :=
  ⟨by decide, toLevelFilter_total 3 (by decide)⟩

/-- C8: the defaults of the optional configuration flags: trust threshold
2/3, trusting period 1209600 seconds — exactly 14 days — maximum clock
drift 5 seconds, maximum block lag 5 seconds. -/
theorem cliDefaults_values :
    cliDefaults.trustThreshold = ⟨2, 3⟩ ∧
    cliDefaults.trustingPeriod = 1209600 ∧
    cliDefaults.trustingPeriod = 14 * 24 * 60 * 60 ∧
    cliDefaults.maxClockDrift = 5 ∧
    cliDefaults.maxBlockLag = 5 := by
  refine ⟨rfl, rfl, ?_, rfl, rfl⟩
  decide

/-- C5: `parse_trust_threshold` returns a trust threshold exactly when the
input splits at a `/` into two parts that both parse as `u64` and that the
threshold constructor accepts; in every other case — no separator,
unparsable part, rejected pair — it returns an error. -/
theorem parseTrustThreshold_ok_iff (s : List Char) :
    (∃ t, parseTrustThreshold s = Except.ok t) ↔
    (∃ l r n d, splitOnceSlash s = some (l, r) ∧ parseU64 l = some n ∧
      parseU64 r = some d ∧ (TrustThreshold.mk? n d).isSome = true) := by
  constructor
  · rintro ⟨t, ht⟩
    unfold parseTrustThreshold at ht
    cases hsp : splitOnceSlash s with
    | none => rw [hsp] at ht; cases ht
    | some p =>
        obtain ⟨l, r⟩ := p
        simp only [hsp] at ht
        cases hn : parseU64 l with
        | none => simp only [hn] at ht; cases ht
        | some n =>
            simp only [hn] at ht
            cases hd : parseU64 r with
            | none => simp only [hd] at ht; cases ht
            | some d =>
                simp only [hd] at ht
                cases hm : TrustThreshold.mk? n d with
                | none => simp only [hm] at ht; cases ht
                | some t0 => exact ⟨l, r, n, d, rfl, hn, hd, by rw [hm]; rfl⟩
  · rintro ⟨l, r, n, d, hsp, hn, hd, hm⟩
    unfold parseTrustThreshold
    simp only [hsp, hn, hd]
    cases hm2 : TrustThreshold.mk? n d with
    | none => rw [hm2] at hm; cases hm
    | some t => simp only [hm2]; exact ⟨t, rfl⟩

/-! ## Expiry predicate -/

/-- Modelled from the spec: the Expiry predicate of the Predicate Set (the
verifier's implementation is not part of the excerpt). Per the boundary
condition "a trusted header with `now − trusted.time == trusting_period`
is treated as expired", the predicate passes exactly while `now` is
strictly before `trusted.time + trusting_period`. -/
def expiryPasses (trustedTime trustingPeriod now : Nat) : Bool :=
  now < trustedTime + trustingPeriod

/-- C6: at `now − trusted.time = trusting_period` the expiry predicate
fails (the header is already expired), while at
`now − trusted.time = trusting_period − 1` it still passes. -/
theorem expiryPasses_boundary (trustedTime trustingPeriod : Nat)
    (hp : 0 < trustingPeriod) :
    expiryPasses trustedTime trustingPeriod (trustedTime + trustingPeriod) = false ∧
    expiryPasses trustedTime trustingPeriod
      (trustedTime + (trustingPeriod - 1)) = true := by
  constructor
  · simp [expiryPasses]
  · simp only [expiryPasses, decide_eq_true_eq]
    omega

/-- C6 witness: with trusting period 5 and a header at time 10, time 15 is
expired and time 14 is not. -/
theorem expiryPasses_boundary_witness :
    0 < 5 ∧
    (expiryPasses 10 5 15 = false ∧ expiryPasses 10 5 14 = true) :=
  ⟨by decide, expiryPasses_boundary 10 5 (by decide)⟩

/-! ## Block acquisition and the null fetch capability -/

/-- `NullIo::fetch_light_block` (main.rs lines 310–316): the body is
`unimplemented!`, an abort, so an invocation never yields a block. -/
def nullIoFetchLightBlock : Nat → Option LightBlock := fun _ => none

/-- Modelled from the spec: the verification engine's block acquisition
step (the engine lives outside the excerpt) — "The core only calls this
when a candidate block is not already in the Store": the store is
consulted first and the fetch capability is invoked only on a miss. The
second component counts fetch invocations. -/
def acquireBlock (store : LightStore) (h : Nat) : Option LightBlock × Nat :=
  match storeLookup store h with
  | some e => (some e.1, 0)
  | none => (nullIoFetchLightBlock h, 1)

/-- Modelled from the spec: the total number of fetch invocations over a
verification run in which the scheduler examines the given heights. -/
def fetchInvocations (store : LightStore) (heights : List Nat) : Nat :=
  heights.foldl (fun n h => n + (acquireBlock store h).2) 0

/-- C2: when every height the scheduler examines is already present in the
store — as when the whole trace is pre-supplied from the input file — the
fetch capability is never invoked, so the aborting body of
`NullIo::fetch_light_block` is unreachable. -/
theorem fetchInvocations_zero_of_all_present (store : LightStore)
    (heights : List Nat)
    (hall : ∀ h ∈ heights, (storeLookup store h).isSome = true) :
    fetchInvocations store heights = 0 := by
  have main : ∀ (hs : List Nat) (n : Nat),
      (∀ h ∈ hs, (storeLookup store h).isSome = true) →
      hs.foldl (fun n h => n + (acquireBlock store h).2) n = n := by
    intro hs
    induction hs with
    | nil => intro n _; rfl
    | cons h t ih =>
        intro n hall
        have hh := hall h (List.mem_cons_self _ _)
        have hz : (acquireBlock store h).2 = 0 := by
          cases hl : storeLookup store h with
          | none => rw [hl] at hh; cases hh
          | some e => simp [acquireBlock, hl]
        rw [List.foldl_cons, hz, Nat.add_zero]
        exact ih n (fun x hx => hall x (List.mem_cons_of_mem _ hx))
  exact main heights 0 hall

/-- A concrete two-block store used to instantiate the fetch-count
theorem. -/
def sampleStore : LightStore :=
  storeInsert (storeInsert [] ⟨1, 5, 0⟩ Status.trusted) ⟨2, 6, 1⟩ Status.unverified

/-- C2 witness: a run over heights 1 and 2, both present in the store,
performs zero fetches. -/
theorem fetchInvocations_zero_witness :
    (∀ h ∈ [1, 2], (storeLookup sampleStore h).isSome = true) ∧
    fetchInvocations sampleStore [1, 2] = 0 :=
  ⟨by decide, fetchInvocations_zero_of_all_present sampleStore [1, 2] (by decide)⟩

/-! ## Divergence detector -/

/-- Lookup of the block at a given height in a trace. -/
def traceLookup (tr : List LightBlock) (h : Nat) : Option LightBlock :=
  tr.find? (fun b => decide (b.height = h))

/-- Modelled from the spec: the heights present in both traces at which the
two headers' hashes differ, paired primary-side first (the detector's
implementation is not part of the excerpt). -/
def conflictingPairs (primary other : List LightBlock) :
    List (LightBlock × LightBlock) :=
  primary.filterMap (fun p =>
    match traceLookup other p.height with
    | some q => if p.hash = q.hash then none else some (p, q)
    | none => none)

/-- Modelled from the spec: the Divergence Detector — "find the lowest
height present in both where the header hashes differ"; evidence is the
conflicting pair at that lowest height, and no evidence is produced when
no common height disagrees. -/
def detectDivergence (primary other : List LightBlock) :
    Option (LightBlock × LightBlock) :=
  (conflictingPairs primary other).foldl
    (fun acc c =>
      match acc with
      | none => some c
      | some c0 => if c.1.height < c0.1.height then some c else some c0)
    none

/-- The furthest height a trace extends to. -/
def traceMaxHeight (tr : List LightBlock) : Nat :=
  tr.foldl (fun m b => max m b.height) 0

theorem conflictingPairs_eq_nil (primary other : List LightBlock)
    (hagree : ∀ p ∈ primary, ∀ q ∈ other, p.height = q.height → p.hash = q.hash) :
    conflictingPairs primary other = [] := by
  apply List.filterMap_eq_nil_iff.mpr
  intro p hp
  cases hl : traceLookup other p.height with
  | none => rfl
  | some q =>
      have hqmem : q ∈ other := List.mem_of_find?_eq_some hl
      have hqh : q.height = p.height := by
        have := List.find?_some hl
        simpa using this
      have : p.hash = q.hash := hagree p hp q hqmem hqh.symm
      simp [this]

/-- C7: for two traces anchored at the same trusted seed that agree at
every height present in both, with the witness trace extending no further
than the primary, the divergence detector reports no evidence. -/
theorem detectDivergence_none_of_consistent_prefix
    (primary other : List LightBlock)
    (_hanchor : primary.head? = other.head?)
    (hagree : ∀ p ∈ primary, ∀ q ∈ other, p.height = q.height → p.hash = q.hash)
    (_hshorter : traceMaxHeight other ≤ traceMaxHeight primary) :
    detectDivergence primary other = none := by
  unfold detectDivergence
  rw [conflictingPairs_eq_nil primary other hagree]
  rfl

/-- C7 witness: a primary trace over heights 10, 20, 30 and a witness
trace that is its consistent two-block prefix yield no evidence. -/
theorem detectDivergence_none_witness :
    ([⟨10, 1, 0⟩, ⟨20, 2, 0⟩, ⟨30, 3, 0⟩] : List LightBlock).head? =
      ([⟨10, 1, 0⟩, ⟨20, 2, 0⟩] : List LightBlock).head? ∧
    (∀ p ∈ ([⟨10, 1, 0⟩, ⟨20, 2, 0⟩, ⟨30, 3, 0⟩] : List LightBlock),
      ∀ q ∈ ([⟨10, 1, 0⟩, ⟨20, 2, 0⟩] : List LightBlock),
        p.height = q.height → p.hash = q.hash) ∧
    traceMaxHeight [⟨10, 1, 0⟩, ⟨20, 2, 0⟩] ≤
      traceMaxHeight [⟨10, 1, 0⟩, ⟨20, 2, 0⟩, ⟨30, 3, 0⟩] ∧
    detectDivergence [⟨10, 1, 0⟩, ⟨20, 2, 0⟩, ⟨30, 3, 0⟩]
      [⟨10, 1, 0⟩, ⟨20, 2, 0⟩] = none :=
  ⟨by decide, by decide, by decide,
    detectDivergence_none_of_consistent_prefix _ _ (by decide) (by decide) (by decide)⟩

end StatelessCli
